import Mathlib

/-!
Shallow embedding of the `infer-rs` inference wrapper (ONNX Runtime and
CoreML backends) and proofs about its resource-handling and dispatch
behaviour.

The Rust sources embedded here are:
* `src/onnx/api.rs`   — the status adapter `API::consume_status`;
* `src/onnx/mod.rs`   — `Environment::new_session`, `Session::run`,
  `Tensor::as_slice`, the `Drop` impls;
* `src/coreml/mod.rs` — `MLModel::predict`, `OutputTensor::as_slice`;
* `src/lib.rs`        — extension-based backend dispatch and the unified
  `OutputTensor`.

Native (FFI) calls are modelled by explicit oracle structures: each oracle
field gives the result the native runtime would return for one native entry
point.  Release calls made by the Rust code are recorded in an explicit
event trace, so "this handle is released exactly once" becomes a statement
about that trace.  Raw native handles are modelled as `Nat`, C strings as
`List Nat` (their bytes, without the terminating NUL), and raw float
buffers as functions `Nat → Int` (an element index to the opaque bits
stored there; no claim depends on floating-point arithmetic).
-/

namespace InferRs

/-- `onnx::Error` (src/onnx/mod.rs): the uniform `(code, message)` pair the
status adapter produces from a native status object. -/
structure Error where
  code : Nat
  message : String
  deriving DecidableEq, Repr

/-- Release/side-effect events emitted by the Rust code towards the native
runtime.  The trace of these events is what the resource claims are about. -/
inductive Event where
  | releaseStatus
  | releaseSession (h : Nat)
  | releaseEnv (h : Nat)
  | releaseMemoryInfo (h : Nat)
  | releaseValue (h : Nat)
  | nativeRunCall
  | nativePredictCall
  deriving DecidableEq, Repr

/-! ## The native status adapter (`API::consume_status`, src/onnx/api.rs) -/

/-- A non-null `OrtStatus` object.  `code` is what `GetErrorCode` returns
for it and `message` the text `GetErrorMessage` returns (already decoded:
the Rust code maps undecodable bytes to a fallback string, which is itself
just some `String`).  A null status pointer is modelled as `Option.none`. -/
structure OrtStatus where
  code : Nat
  message : String
  deriving DecidableEq, Repr

namespace API

/-- `API::consume_status` (src/onnx/api.rs lines 279–299): a null status is
success and performs no native call; a non-null status has its code and
message extracted, is released, and the pair is returned as an `Err`.
The second component is the trace of release events performed. -/
def consume_status (status : Option OrtStatus) : Except Error Unit × List Event :=
  match status with
  | none => (Except.ok (), [])
  | some s =>
      (Except.error { code := s.code, message := s.message }, [Event.releaseStatus])

end API

/-! ## ONNX `Environment::new_session` (src/onnx/mod.rs lines 97–143) -/

/-- Oracle for the native calls `Environment::new_session` makes.  Each
field is the result the ONNX runtime returns for the corresponding native
entry point (already routed through the status adapter, hence
`Except Error`). -/
structure NewSessionOracle where
  getAllocatorWithDefaultOptions : Except Error Nat
  createSessionOptions : Except Error Nat
  createSession : Except Error Nat
  sessionGetOutputCount : Nat → Except Error Nat
  /-- `SessionGetOutputName(sess, i, allocator)`: the bytes of the returned
  allocator-owned C string for output `i`. -/
  sessionGetOutputName : Nat → Nat → Nat → Except Error (List Nat)
  /-- `AllocatorFree(allocator, raw)` for the string fetched at index `i`. -/
  allocatorFree : Nat → Except Error Unit

/-- `onnx::NewSessionError` (src/onnx/mod.rs lines 68–74). -/
inductive NewSessionError where
  | malformedModelPath
  | other (e : Error)
  deriving DecidableEq, Repr

/-- The fields of `onnx::Session` that construction populates
(src/onnx/mod.rs lines 177–184); `output_names` is the decoded copy of
`output_c_names`, which the code captures verbatim, so both are the same
byte lists here. -/
structure Session where
  inner : Nat
  output_names : List (List Nat)
  output_c_names : List (List Nat)
  deriving DecidableEq, Repr

/-- The output-name enumeration loop of `Environment::new_session`
(src/onnx/mod.rs lines 114–121): for each index `i` in `[start, start+n)`,
fetch the name with `SessionGetOutputName`, copy it, free the raw buffer
with `AllocatorFree`; the surrounding `collect::<Result<_, _>>` stops at
the first error. -/
def enumOutputNames (B : NewSessionOracle) (sess alloc : Nat) :
    Nat → Nat → Except Error (List (List Nat))
  | _, 0 => Except.ok []
  | start, n + 1 =>
      match B.sessionGetOutputName sess start alloc with
      | Except.error e => Except.error e
      | Except.ok raw =>
        match B.allocatorFree start with
        | Except.error e => Except.error e
        | Except.ok _ =>
          match enumOutputNames B sess alloc (start + 1) n with
          | Except.error e => Except.error e
          | Except.ok rest => Except.ok (raw :: rest)

/-- `Environment::new_session` (src/onnx/mod.rs lines 97–143).  The path is
encoded as a C string first (`CString::new` fails on an interior NUL
byte).  After the native session is created its handle is wrapped in a
scope guard releasing it; the guard is disarmed (`ScopeGuard::into_inner`)
only when the fully enumerated `Session` value is assembled.  The second
component is the trace of release events performed. -/
def Environment.new_session (B : NewSessionOracle) (pathBytes : List Nat) :
    Except NewSessionError Session × List Event :=
  if pathBytes.contains 0 then
    (Except.error NewSessionError.malformedModelPath, [])
  else
    match B.getAllocatorWithDefaultOptions with
    | Except.error e => (Except.error (NewSessionError.other e), [])
    | Except.ok alloc =>
      match B.createSessionOptions with
      | Except.error e => (Except.error (NewSessionError.other e), [])
      | Except.ok _opts =>
        match B.createSession with
        | Except.error e => (Except.error (NewSessionError.other e), [])
        | Except.ok sess =>
          match B.sessionGetOutputCount sess with
          | Except.error e =>
              (Except.error (NewSessionError.other e), [Event.releaseSession sess])
          | Except.ok count =>
            match enumOutputNames B sess alloc 0 count with
            | Except.error e =>
                (Except.error (NewSessionError.other e), [Event.releaseSession sess])
            | Except.ok cnames =>
                (Except.ok { inner := sess
                             output_names := cnames
                             output_c_names := cnames }, [])

/-! ## ONNX tensors (`Tensor`, src/onnx/mod.rs lines 276–308) -/

/-- `sys::ONNXTensorElementDataType_ONNX_TENSOR_ELEMENT_DATA_TYPE_FLOAT`:
the generated binding's numeric code for float32 tensors. -/
def ONNX_TENSOR_ELEMENT_DATA_TYPE_FLOAT : Nat := 1

/-- `<f32 as DataType>::tensor_element_data_type()` (src/onnx/mod.rs lines
270–274). -/
def f32_tensor_element_data_type : Nat := ONNX_TENSOR_ELEMENT_DATA_TYPE_FLOAT

/-- The `n as usize` cast applied to each `i64` dimension returned by
`GetDimensions` (src/onnx/mod.rs line 242): wraps modulo `2^64`. -/
def i64ToUsize (n : Int) : Nat := (n % (2 : Int) ^ 64).toNat

/-- `onnx::Tensor` (src/onnx/mod.rs lines 276–283).  `data_ptr` models the
raw buffer behind the tensor's data pointer: element index to the opaque
bits stored there. -/
structure Tensor where
  inner : Nat
  data_type : Nat
  data_ptr : Nat → Int
  shape : List Nat

/-- `Tensor::as_slice::<T>` (src/onnx/mod.rs lines 290–301), with the
requested type `T` represented by its tensor-element-data-type code: if the
requested code equals the stored `data_type`, the raw buffer is exposed as
a slice of exactly `shape.iter().product()` elements; otherwise `None`. -/
def Tensor.as_slice (t : Tensor) (reqDataType : Nat) : Option (List Int) :=
  if reqDataType = t.data_type then
    some ((List.range t.shape.prod).map t.data_ptr)
  else
    none

/-! ## CoreML output tensors (`coreml::OutputTensor`, src/coreml/mod.rs) -/

/-- `coreml::OutputTensor` (src/coreml/mod.rs lines 88–91): a retained
`MLMultiArray` handle, the captured shape, and the raw buffer behind
`mlmultiarray_data`. -/
structure COutputTensor where
  multiarray : Nat
  shape : List Nat
  data : Nat → Int

/-- `coreml::OutputTensor::as_slice` (src/coreml/mod.rs lines 94–99):
exposes the multiarray's data pointer as a slice of exactly
`shape.iter().product()` elements, with no element-type check. -/
def COutputTensor.as_slice (t : COutputTensor) : List Int :=
  (List.range t.shape.prod).map t.data

/-! ## ONNX `Session::run` (src/onnx/mod.rs lines 199–257) -/

/-- `onnx::SessionRunError` (src/onnx/mod.rs lines 186–192). -/
inductive SessionRunError where
  | malformedInputName
  | other (e : Error)
  deriving DecidableEq, Repr

/-- The queries `Session::run` makes against one
`OrtTensorTypeAndShapeInfo` handle: element type, dimension count, the
`i64` values `GetDimensions` writes into slot `i`, and the status of the
`GetDimensions` call itself. -/
structure TypeShapeInfo where
  getTensorElementType : Except Error Nat
  getDimensionsCount : Except Error Nat
  getDimensions : Nat → Int
  getDimensionsResult : Except Error Unit

/-- One native `OrtValue` written into the output array by `Run`, together
with the results of the queries `Session::run` makes against it. -/
structure NativeValue where
  handle : Nat
  getTensorTypeAndShape : Except Error TypeShapeInfo
  getTensorMutableData : Except Error (Nat → Int)

/-- Oracle for the native `Run` call (src/onnx/api.rs lines 127–147):
given the input names, input value handles and requested output names, the
runtime either fails or fills output slot `i` with a native value.  The
Rust side allocates the output array with exactly one slot per requested
output name, so on success the outputs are slots `0 .. output_names.length`. -/
structure RunOracle where
  run : List (List Nat) → List Nat → List (List Nat) →
    Except Error (Nat → NativeValue)

/-- The per-output materialization inside `Session::run` (src/onnx/mod.rs
lines 232–253), in source order: query the type-and-shape info handle,
read the element type from it, read the data pointer from the value, read
the dimension count, fill the dimension array, and build the `Tensor`
(each dimension cast `as usize`). -/
def materializeOutput (v : NativeValue) : Except Error Tensor :=
  match v.getTensorTypeAndShape with
  | Except.error e => Except.error e
  | Except.ok info =>
    match info.getTensorElementType with
    | Except.error e => Except.error e
    | Except.ok data_type =>
      match v.getTensorMutableData with
      | Except.error e => Except.error e
      | Except.ok data_ptr =>
        match info.getDimensionsCount with
        | Except.error e => Except.error e
        | Except.ok dimsCount =>
          match info.getDimensionsResult with
          | Except.error e => Except.error e
          | Except.ok _ =>
              Except.ok { inner := v.handle
                          data_type := data_type
                          data_ptr := data_ptr
                          shape := (List.range dimsCount).map
                            (fun i => i64ToUsize (info.getDimensions i)) }

/-- The `collect::<Result<_, _>>` over the output materializations
(src/onnx/mod.rs lines 229–255): stops at the first error. -/
def materializeOutputs : List NativeValue → Except Error (List Tensor)
  | [] => Except.ok []
  | v :: rest =>
      match materializeOutput v with
      | Except.error e => Except.error e
      | Except.ok t =>
        match materializeOutputs rest with
        | Except.error e => Except.error e
        | Except.ok ts => Except.ok (t :: ts)

/-- `Session::run` (src/onnx/mod.rs lines 199–257).  First every input
name is encoded as a C string (`CString::new` fails on an embedded NUL
byte, before any native call); then the native `Run` entry point is
invoked once, requesting the session's full output-name table; on success
each returned value is materialized into a `Tensor` paired with
`output_names[i]`.  The trace records the native run invocation and any
value releases: on a materialization failure every output value handle is
released (the not-yet-disarmed scope guards fire, and tensors already
built are dropped). -/
def Session.run (S : Session) (B : RunOracle) (inputs : List (List Nat × Tensor)) :
    Except SessionRunError (List (List Nat × Tensor)) × List Event :=
  if inputs.any (fun p => p.1.contains 0) then
    (Except.error SessionRunError.malformedInputName, [])
  else
    match B.run (inputs.map Prod.fst) (inputs.map (fun p => p.2.inner)) S.output_c_names with
    | Except.error e => (Except.error (SessionRunError.other e), [Event.nativeRunCall])
    | Except.ok fill =>
      let outputs := (List.range S.output_c_names.length).map fill
      match materializeOutputs outputs with
      | Except.error e =>
          (Except.error (SessionRunError.other e),
            Event.nativeRunCall :: outputs.map (fun v => Event.releaseValue v.handle))
      | Except.ok tensors =>
          (Except.ok (S.output_names.zip tensors), [Event.nativeRunCall])

/-! ## CoreML `MLModel` (src/coreml/mod.rs) -/

/-- `coreml::NewMLModelError` (src/coreml/mod.rs lines 40–46). -/
inductive NewMLModelError where
  | malformedPath
  | openError
  deriving DecidableEq, Repr

/-- `coreml::PredictError` (src/coreml/mod.rs lines 48–54). -/
inductive PredictError where
  | malformedInputName
  | predictError
  deriving DecidableEq, Repr

/-- `coreml::InputTensor` (src/coreml/mod.rs lines 56–59). -/
structure CInputTensor where
  data : List Int
  shape : List Nat

/-- One native `MLMultiArray` handle and the results of the queries
`OutputProvider::output_tensor` makes against it. -/
structure MLMultiArray where
  handle : Nat
  dimensionality : Nat
  shapeAt : Nat → Nat
  data : Nat → Int

/-- The transient output provider returned by `mlmodel_predict`
(src/coreml/mod.rs lines 61–80): a named lookup that yields the
`MLMultiArray` for an output name, or `none` when the native lookup
returns null. -/
structure OutputProvider where
  multiarrayByName : List Nat → Option MLMultiArray

/-- `OutputProvider::output_tensor` (src/coreml/mod.rs lines 64–79): a
null multiarray yields `None`; otherwise the dimensionality is queried,
the shape array is filled, and an `OutputTensor` owning the multiarray
handle is built. -/
def OutputProvider.output_tensor (p : OutputProvider) (name : List Nat) :
    Option COutputTensor :=
  match p.multiarrayByName name with
  | none => none
  | some arr =>
      some { multiarray := arr.handle
             shape := (List.range arr.dimensionality).map arr.shapeAt
             data := arr.data }

/-- The fields of `coreml::MLModel` (src/coreml/mod.rs lines 34–38);
`output_names` and `output_c_names` are captured from the same native
strings at load time, so both are the same byte lists here. -/
structure MLModel where
  inner : Nat
  output_names : List (List Nat)
  output_c_names : List (List Nat)
  deriving DecidableEq, Repr

/-- Oracle for the native `mlmodel_predict` call (src/coreml/mod.rs lines
177–186): given the encoded input names and the input tensors, the native
side either returns null (`none`) or an output provider. -/
structure PredictOracle where
  predict : List (List Nat) → List CInputTensor → Option OutputProvider

/-- The output-collection loop of `MLModel::predict` (src/coreml/mod.rs
lines 191–196): walk the zipped `(output_names, output_c_names)` table in
order, look each C name up in the output provider, push the `(name,
tensor)` pairs that are present and skip the absent ones. -/
def collectOutputs (p : OutputProvider) :
    List (List Nat × List Nat) → List (List Nat × COutputTensor)
  | [] => []
  | (name, cname) :: rest =>
      match p.output_tensor cname with
      | some out => (name, out) :: collectOutputs p rest
      | none => collectOutputs p rest

/-- `MLModel::predict` (src/coreml/mod.rs lines 151–198).  First every
input name is encoded as a C string (`CString::new` fails on an embedded
NUL byte, before any native call); then `mlmodel_predict` is invoked once;
a null provider is a predict error; otherwise the outputs present in the
provider are collected in output-table order. -/
def MLModel.predict (M : MLModel) (B : PredictOracle)
    (inputs : List (List Nat × CInputTensor)) :
    Except PredictError (List (List Nat × COutputTensor)) × List Event :=
  if inputs.any (fun p => p.1.contains 0) then
    (Except.error PredictError.malformedInputName, [])
  else
    match B.predict (inputs.map Prod.fst) (inputs.map Prod.snd) with
    | none => (Except.error PredictError.predictError, [Event.nativePredictCall])
    | some provider =>
        (Except.ok (collectOutputs provider (M.output_names.zip M.output_c_names)),
          [Event.nativePredictCall])

/-! ## The unified output tensor (`OutputTensor`, src/lib.rs lines 125–150) -/

/-- `OutputTensor` (src/lib.rs lines 125–130): the backend-tagged union of
the two output-tensor variants. -/
inductive UOutputTensor where
  | onnx (t : Tensor)
  | coreml (t : COutputTensor)

/-- `OutputTensor::as_slice` (src/lib.rs lines 133–140): the ONNX arm calls
`Tensor::as_slice::<f32>` (which may report no data); the CoreML arm always
wraps `coreml::OutputTensor::as_slice` in `Some`. -/
def UOutputTensor.as_slice : UOutputTensor → Option (List Int)
  | UOutputTensor.onnx t => t.as_slice f32_tensor_element_data_type
  | UOutputTensor.coreml t => some t.as_slice

/-- `OutputTensor::shape` (src/lib.rs lines 142–149). -/
def UOutputTensor.shape : UOutputTensor → List Nat
  | UOutputTensor.onnx t => t.shape
  | UOutputTensor.coreml t => t.shape

/-! ## Environment destruction (src/onnx/mod.rs lines 35–50 and 171–175) -/

/-- The handles an `onnx::MemoryInfo` owns (src/onnx/mod.rs lines 35–38). -/
structure MemoryInfo where
  inner : Nat
  deriving DecidableEq, Repr

/-- The handles an `onnx::Environment` owns (src/onnx/mod.rs lines 46–50),
in field-declaration order: the `api` table is `Copy` and owns nothing, so
only `memory_info` and the raw `inner` env pointer are kept. -/
structure EnvironmentHandles where
  memory_info : MemoryInfo
  inner : Nat
  deriving DecidableEq, Repr

/-- The release trace produced when an `onnx::Environment` value is
destroyed.  Rust first runs `Drop::drop` for `Environment`
(src/onnx/mod.rs lines 171–175), which calls `release_env(self.inner)`,
and then drops the remaining fields in declaration order; `api` is `Copy`
and the raw pointer itself has no drop glue, so the only field drop is
`memory_info`'s `Drop` (src/onnx/mod.rs lines 40–44), which calls
`release_memory_info`. -/
def Environment.dropTrace (env : EnvironmentHandles) : List Event :=
  [Event.releaseEnv env.inner] ++ [Event.releaseMemoryInfo env.memory_info.inner]

/-! ## Backend dispatch (`Environment::new_session`, src/lib.rs lines 41–50) -/

/-- The file-name component of a path (`Path::file_name`): the characters
after the last `'/'`.  The special components `"."` and `".."` (for which
`Path::file_name` is `None` after normalization) are handled in
`rustExtension`. -/
def fileNameChars (p : List Char) : List Char :=
  (p.reverse.takeWhile (fun c => c != '/')).reverse

/-- `Path::extension`: split the file name at its last `'.'`; the
extension is what follows that dot, and it exists only when something
non-empty precedes the dot (so dotless names and names whose only dot is
the leading one have no extension).  Matching is exact and case-sensitive,
exactly as the byte comparison Rust performs. -/
def rustExtension (p : List Char) : Option (List Char) :=
  let f := fileNameChars p
  if f = [] ∨ f = ['.'] ∨ f = ['.', '.'] then none
  else
    let r := f.reverse
    match r.dropWhile (fun c => c != '.') with
    | [] => none
    | _ :: before =>
        if before = [] then none
        else some (r.takeWhile (fun c => c != '.')).reverse

/-- Lower-casing a character list; used only to *state* the
case-sensitivity claim about extension matching. -/
def lowerChars (l : List Char) : List Char :=
  l.map Char.toLower

/-- Which backend constructor `Environment::new_session` invoked. -/
inductive BackendAttempt where
  | onnx
  | coreml
  deriving DecidableEq, Repr

/-- `NewSessionError` (src/lib.rs lines 21–31): the unified
session-creation error. -/
inductive UNewSessionError where
  | onnxErr (e : NewSessionError)
  | coremlErr (e : NewMLModelError)
  | unsupportedFormat
  deriving DecidableEq, Repr

/-- `Session` (src/lib.rs lines 53–58): the backend-tagged union of the
two loaded-model types. -/
inductive USession where
  | onnx (s : Session)
  | coreml (m : MLModel)
  deriving DecidableEq, Repr

/-- `Environment::new_session` (src/lib.rs lines 41–50): dispatch on the
path's extension — `"onnx"` opens an ONNX session, `"mlmodel"` opens a
CoreML model, anything else (including no extension) is
`UnsupportedFormat`.  The backend constructors' results are supplied as
arguments: `onnxNew` models `self.onnx.new_session(model_path)` and
`coremlNew` models `coreml::MLModel::new(model_path)`.  The second
component records which backend constructions were attempted. -/
def UEnvironment.new_session (onnxNew : Except NewSessionError Session)
    (coremlNew : Except NewMLModelError MLModel) (path : List Char) :
    Except UNewSessionError USession × List BackendAttempt :=
  match rustExtension path with
  | some ext =>
      if ext = "onnx".toList then
        (match onnxNew with
         | Except.ok s => Except.ok (USession.onnx s)
         | Except.error e => Except.error (UNewSessionError.onnxErr e),
         [BackendAttempt.onnx])
      else if ext = "mlmodel".toList then
        (match coremlNew with
         | Except.ok m => Except.ok (USession.coreml m)
         | Except.error e => Except.error (UNewSessionError.coremlErr e),
         [BackendAttempt.coreml])
      else (Except.error UNewSessionError.unsupportedFormat, [])
  | none => (Except.error UNewSessionError.unsupportedFormat, [])

/-! ## Concrete sample values used to instantiate the theorems -/

/-- A concrete two-output session (output names `"a"` and `"b"`). -/
def sampleSession : Session :=
  { inner := 1, output_names := [[97], [98]], output_c_names := [[97], [98]] }

/-- A concrete native output value: float32 element type, one dimension of
size 2, data read off `Int.ofNat`. -/
def sampleNativeValue : NativeValue :=
  { handle := 9
    getTensorTypeAndShape :=
      Except.ok { getTensorElementType := Except.ok 1
                  getDimensionsCount := Except.ok 1
                  getDimensions := fun _ => 2
                  getDimensionsResult := Except.ok () }
    getTensorMutableData := Except.ok Int.ofNat }

/-- A run oracle that always succeeds and fills every output slot with
`sampleNativeValue`. -/
def sampleRunOracle : RunOracle :=
  { run := fun _ _ _ => Except.ok (fun _ => sampleNativeValue) }

/-- The tensor `sampleNativeValue` materializes to. -/
def sampleTensor : Tensor :=
  { inner := 9, data_type := 1, data_ptr := Int.ofNat, shape := [i64ToUsize 2] }

/-- A concrete two-output CoreML model (output names `"a"` and `"b"`). -/
def sampleMLModel : MLModel :=
  { inner := 2, output_names := [[97], [98]], output_c_names := [[97], [98]] }

/-- A concrete multiarray of shape `[3]`. -/
def sampleMultiArray : MLMultiArray :=
  { handle := 4, dimensionality := 1, shapeAt := fun _ => 3, data := Int.ofNat }

/-- An output provider for which output `"a"` is present and output `"b"`
is absent. -/
def sampleProvider : OutputProvider :=
  { multiarrayByName := fun name => if name = [97] then some sampleMultiArray else none }

/-- A predict oracle that always succeeds with `sampleProvider`. -/
def samplePredictOracle : PredictOracle :=
  { predict := fun _ _ => some sampleProvider }

/-- A concrete borrowed input tensor (ONNX side). -/
def sampleInputTensor : Tensor :=
  { inner := 0, data_type := 1, data_ptr := fun _ => 0, shape := [1] }

/-- A concrete borrowed input tensor (CoreML side). -/
def sampleCInputTensor : CInputTensor :=
  { data := [0], shape := [1] }

end InferRs

namespace InferRs

/-! ## Theorems for claims C1 and C2 -/

/-- **C2.** For every native status value routed through
`API::consume_status`: a null status yields `Ok(())` and no release call is
made; a non-null status yields `Err` carrying the numeric code and the
message extracted from the status object, and the status object is
released exactly once before the adapter returns. -/
theorem consume_status_contract :
    (API.consume_status none).1 = Except.ok () ∧
    (API.consume_status none).2.count Event.releaseStatus = 0 ∧
    ∀ s : OrtStatus,
      (API.consume_status (some s)).1 =
        Except.error { code := s.code, message := s.message } ∧
      (API.consume_status (some s)).2.count Event.releaseStatus = 1 := by
  refine ⟨rfl, rfl, fun s => ⟨rfl, rfl⟩⟩

/-- **C1.** If `Environment::new_session`'s output-name enumeration step
fails after the native create-session call has succeeded, the just-created
native session handle is released exactly once (the scope guard fires)
and the result is an error, so no `Session` value is returned. -/
theorem new_session_enumeration_failure_releases_session
    (B : NewSessionOracle) (pathBytes : List Nat) (sess : Nat)
    (hpath : 0 ∉ pathBytes)
    (halloc : ∃ a, B.getAllocatorWithDefaultOptions = Except.ok a)
    (hopts : ∃ o, B.createSessionOptions = Except.ok o)
    (hsess : B.createSession = Except.ok sess)
    (henum : (∃ e, B.sessionGetOutputCount sess = Except.error e) ∨
      (∃ count e, B.sessionGetOutputCount sess = Except.ok count ∧
        ∀ a, B.getAllocatorWithDefaultOptions = Except.ok a →
          enumOutputNames B sess a 0 count = Except.error e)) :
    (∃ e, (Environment.new_session B pathBytes).1 =
        Except.error (NewSessionError.other e)) ∧
    (Environment.new_session B pathBytes).2.count (Event.releaseSession sess) = 1 := by
  obtain ⟨a, ha⟩ := halloc
  obtain ⟨o, ho⟩ := hopts
  rcases henum with ⟨e, he⟩ | ⟨count, e, hcount, henum⟩
  · refine ⟨⟨e, ?_⟩, ?_⟩ <;>
      simp [Environment.new_session, hpath, ha, ho, hsess, he]
  · have henum' := henum a ha
    refine ⟨⟨e, ?_⟩, ?_⟩ <;>
      simp [Environment.new_session, hpath, ha, ho, hsess, hcount, henum']

/-- Witness for C1: a concrete oracle where session creation succeeds with
handle 7 and the output-count query fails; the trace releases handle 7
exactly once and the result is an error. -/
theorem new_session_enumeration_failure_releases_session_witness :
    (∃ e, (Environment.new_session
        { getAllocatorWithDefaultOptions := Except.ok 1
          createSessionOptions := Except.ok 2
          createSession := Except.ok 7
          sessionGetOutputCount := fun _ => Except.error ⟨3, "count failed"⟩
          sessionGetOutputName := fun _ _ _ => Except.ok []
          allocatorFree := fun _ => Except.ok () } [104, 105]).1 =
        Except.error (NewSessionError.other e)) ∧
    (Environment.new_session
        { getAllocatorWithDefaultOptions := Except.ok 1
          createSessionOptions := Except.ok 2
          createSession := Except.ok 7
          sessionGetOutputCount := fun _ => Except.error ⟨3, "count failed"⟩
          sessionGetOutputName := fun _ _ _ => Except.ok []
          allocatorFree := fun _ => Except.ok () } [104, 105]).2.count
      (Event.releaseSession 7) = 1 :=
  new_session_enumeration_failure_releases_session _ _ 7
    (by decide) ⟨1, rfl⟩ ⟨2, rfl⟩ rfl (Or.inl ⟨⟨3, "count failed"⟩, rfl⟩)

/-! ## Helper lemmas shared by the run/predict theorems -/

/-- `map fst` of a zip is the first `b.length` entries of `a`. -/
theorem map_fst_zip_eq_take {α β : Type} (a : List α) (b : List β) :
    (a.zip b).map Prod.fst = a.take b.length := by
  induction a generalizing b with
  | nil => simp
  | cons x xs ih =>
    cases b with
    | nil => simp
    | cons y ys => simp [ih]

/-- The CoreML output-collection loop is the `filterMap` of the provider
lookup over the output table. -/
theorem collectOutputs_eq_filterMap (p : OutputProvider)
    (l : List (List Nat × List Nat)) :
    collectOutputs p l =
      l.filterMap (fun nc => (p.output_tensor nc.2).map (fun out => (nc.1, out))) := by
  induction l with
  | nil => rfl
  | cons nc rest ih =>
    obtain ⟨name, cname⟩ := nc
    simp only [collectOutputs]
    cases h : p.output_tensor cname with
    | none => simp [List.filterMap_cons, h, ih]
    | some out => simp [List.filterMap_cons, h, ih]

/-- The names produced by the CoreML output-collection loop form a
subsequence of the table's names, in order. -/
theorem collectOutputs_names_sublist (p : OutputProvider)
    (l : List (List Nat × List Nat)) :
    ((collectOutputs p l).map Prod.fst).Sublist (l.map Prod.fst) := by
  induction l with
  | nil => simp [collectOutputs]
  | cons nc rest ih =>
    obtain ⟨name, cname⟩ := nc
    simp only [collectOutputs]
    cases h : p.output_tensor cname with
    | none =>
        simp only [List.map_cons]
        exact ih.cons _
    | some out =>
        simp only [List.map_cons]
        exact ih.cons₂ _

/-! ## Theorems for claims C3 and C5 -/

/-- **C3.** On a successful run, for each declared output name in
output-name-table order the session materializes an output tensor view,
skipping (CoreML) any output the backend reports as absent for that
particular run, and returns the `(name, view)` pairs actually produced —
possibly fewer than the full output-name table, with every returned name
the table entry at its position (the result's names are a prefix of the
table on the ONNX side and an order-preserving subsequence on the CoreML
side, where the result is exactly the table filtered by provider
presence). -/
theorem run_success_outputs_follow_name_table
    (S : Session) (B : RunOracle) (inputs : List (List Nat × Tensor))
    (fill : Nat → NativeValue) (tensors : List Tensor)
    (M : MLModel) (BC : PredictOracle) (inputsC : List (List Nat × CInputTensor))
    (provider : OutputProvider)
    (hno : inputs.any (fun p => p.1.contains 0) = false)
    (hrun : B.run (inputs.map Prod.fst) (inputs.map fun p => p.2.inner)
      S.output_c_names = Except.ok fill)
    (hmat : materializeOutputs ((List.range S.output_c_names.length).map fill)
      = Except.ok tensors)
    (hnoC : inputsC.any (fun p => p.1.contains 0) = false)
    (hpred : BC.predict (inputsC.map Prod.fst) (inputsC.map Prod.snd) = some provider) :
    ((S.run B inputs).1 = Except.ok (S.output_names.zip tensors) ∧
      (S.output_names.zip tensors).length ≤ S.output_names.length ∧
      (S.output_names.zip tensors).map Prod.fst =
        S.output_names.take (S.output_names.zip tensors).length) ∧
    ((M.predict BC inputsC).1 =
        Except.ok (collectOutputs provider (M.output_names.zip M.output_c_names)) ∧
      collectOutputs provider (M.output_names.zip M.output_c_names) =
        (M.output_names.zip M.output_c_names).filterMap
          (fun nc => (provider.output_tensor nc.2).map (fun out => (nc.1, out))) ∧
      ((collectOutputs provider
          (M.output_names.zip M.output_c_names)).map Prod.fst).Sublist
        M.output_names) := by
  refine ⟨⟨?_, ?_, ?_⟩, ⟨?_, ?_, ?_⟩⟩
  · simp only [Session.run]
    rw [hno]
    simp [hrun, hmat]
  · simp [List.length_zip]
  · rw [map_fst_zip_eq_take, List.length_zip]
    exact List.take_eq_take.mpr (by omega)
  · simp only [MLModel.predict]
    rw [hnoC]
    simp [hpred]
  · exact collectOutputs_eq_filterMap provider _
  · refine (collectOutputs_names_sublist provider _).trans ?_
    rw [map_fst_zip_eq_take]
    exact List.take_sublist _ _

/-- Witness for C3: a two-output session and a two-output CoreML model,
where the run oracle fills both ONNX outputs and the CoreML provider
reports output `"a"` present and output `"b"` absent. -/
theorem run_success_outputs_follow_name_table_witness :
    ((sampleSession.run sampleRunOracle []).1 =
        Except.ok (sampleSession.output_names.zip [sampleTensor, sampleTensor]) ∧
      (sampleSession.output_names.zip [sampleTensor, sampleTensor]).length ≤
        sampleSession.output_names.length ∧
      (sampleSession.output_names.zip [sampleTensor, sampleTensor]).map Prod.fst =
        sampleSession.output_names.take
          (sampleSession.output_names.zip [sampleTensor, sampleTensor]).length) ∧
    ((sampleMLModel.predict samplePredictOracle []).1 =
        Except.ok (collectOutputs sampleProvider
          (sampleMLModel.output_names.zip sampleMLModel.output_c_names)) ∧
      collectOutputs sampleProvider
          (sampleMLModel.output_names.zip sampleMLModel.output_c_names) =
        (sampleMLModel.output_names.zip sampleMLModel.output_c_names).filterMap
          (fun nc => (sampleProvider.output_tensor nc.2).map (fun out => (nc.1, out))) ∧
      ((collectOutputs sampleProvider
          (sampleMLModel.output_names.zip sampleMLModel.output_c_names)).map
            Prod.fst).Sublist sampleMLModel.output_names) :=
  run_success_outputs_follow_name_table sampleSession sampleRunOracle []
    (fun _ => sampleNativeValue) [sampleTensor, sampleTensor]
    sampleMLModel samplePredictOracle [] sampleProvider rfl rfl rfl rfl rfl

/-- **C5.** For every sequence of run/predict inputs in which some input
name contains an embedded NUL byte, the call fails with the name-encoding
error (`MalformedInputName`) before any native call is made — the native
trace is empty — and no output tensor view is constructed. -/
theorem nul_in_input_name_fails_before_native_call
    (S : Session) (B : RunOracle) (inputs : List (List Nat × Tensor))
    (M : MLModel) (BC : PredictOracle) (inputsC : List (List Nat × CInputTensor))
    (hbad : ∃ p ∈ inputs, (0 : Nat) ∈ p.1)
    (hbadC : ∃ p ∈ inputsC, (0 : Nat) ∈ p.1) :
    ((S.run B inputs).1 = Except.error SessionRunError.malformedInputName ∧
      (S.run B inputs).2 = []) ∧
    ((M.predict BC inputsC).1 = Except.error PredictError.malformedInputName ∧
      (M.predict BC inputsC).2 = []) := by
  obtain ⟨p, hp, h0⟩ := hbad
  obtain ⟨q, hq, h0C⟩ := hbadC
  have hany : inputs.any (fun p => p.1.contains 0) = true := by
    rw [List.any_eq_true]
    exact ⟨p, hp, by simpa using h0⟩
  have hanyC : inputsC.any (fun p => p.1.contains 0) = true := by
    rw [List.any_eq_true]
    exact ⟨q, hq, by simpa using h0C⟩
  constructor
  · constructor <;> (simp only [Session.run]; rw [hany]; rfl)
  · constructor <;> (simp only [MLModel.predict]; rw [hanyC]; rfl)

/-- Witness for C5: the single input name `[0]` (one embedded NUL byte)
makes both backends fail with the name-encoding error and an empty native
trace. -/
theorem nul_in_input_name_fails_before_native_call_witness :
    ((sampleSession.run sampleRunOracle [([0], sampleInputTensor)]).1 =
        Except.error SessionRunError.malformedInputName ∧
      (sampleSession.run sampleRunOracle [([0], sampleInputTensor)]).2 = []) ∧
    ((sampleMLModel.predict samplePredictOracle [([0], sampleCInputTensor)]).1 =
        Except.error PredictError.malformedInputName ∧
      (sampleMLModel.predict samplePredictOracle [([0], sampleCInputTensor)]).2 = []) :=
  nul_in_input_name_fails_before_native_call sampleSession sampleRunOracle _
    sampleMLModel samplePredictOracle _
    ⟨([0], sampleInputTensor), by simp, by simp⟩
    ⟨([0], sampleCInputTensor), by simp, by simp⟩

/-! ## Theorems for claims C6, C8 and C10 -/

/-- **C6.** For every runtime-owned (ONNX) or platform-owned (CoreML)
output tensor view, the slice returned by `as_slice` has length equal to
the product of the view's shape dimensions. -/
theorem as_slice_length_eq_shape_prod (v : UOutputTensor) (s : List Int)
    (h : v.as_slice = some s) : s.length = v.shape.prod := by
  cases v with
  | onnx t =>
      simp only [UOutputTensor.as_slice, Tensor.as_slice] at h
      split at h
      · cases h
        simp [UOutputTensor.shape]
      · cases h
  | coreml t =>
      cases h
      simp [UOutputTensor.shape, COutputTensor.as_slice]

/-- Witness for C6: a concrete ONNX-backed output view of shape `[2, 3]`
whose slice has length `6`. -/
theorem as_slice_length_eq_shape_prod_witness :
    (UOutputTensor.onnx
        { inner := 0, data_type := 1, data_ptr := Int.ofNat, shape := [2, 3] }).as_slice =
      some [0, 1, 2, 3, 4, 5] ∧
    (List.length [(0 : Int), 1, 2, 3, 4, 5]) =
      (UOutputTensor.onnx
        { inner := 0, data_type := 1, data_ptr := Int.ofNat, shape := [2, 3] }).shape.prod :=
  ⟨by decide, as_slice_length_eq_shape_prod _ _ (by decide)⟩

/-- **C8.** For every ONNX tensor view, `as_slice::<T>()` returns `Some`
slice of exactly `product(shape)` elements read off the tensor's buffer
when `T`'s tensor element data type equals the element type stored for
that tensor, and returns `None` when the types differ, never
reinterpreting the bytes as another type. -/
theorem tensor_as_slice_type_check (t : Tensor) (reqDataType : Nat) :
    (reqDataType = t.data_type →
      t.as_slice reqDataType = some ((List.range t.shape.prod).map t.data_ptr) ∧
      ∀ s, t.as_slice reqDataType = some s → s.length = t.shape.prod) ∧
    (reqDataType ≠ t.data_type → t.as_slice reqDataType = none) := by
  constructor
  · intro h
    refine ⟨by simp [Tensor.as_slice, h], ?_⟩
    intro s hs
    simp [Tensor.as_slice, h] at hs
    simp [← hs]
  · intro h
    simp [Tensor.as_slice, h]

/-- Witness for C8: a concrete tensor of element type 1 and shape `[2, 2]`
read back at the matching type code (a 4-element slice) and at a differing
type code (`None`). -/
theorem tensor_as_slice_type_check_witness :
    ({ inner := 0, data_type := 1, data_ptr := Int.ofNat, shape := [2, 2] } :
        Tensor).as_slice 1 = some [0, 1, 2, 3] ∧
    ({ inner := 0, data_type := 1, data_ptr := Int.ofNat, shape := [2, 2] } :
        Tensor).as_slice 2 = none := by
  constructor
  · have h := (tensor_as_slice_type_check
      { inner := 0, data_type := 1, data_ptr := Int.ofNat, shape := [2, 2] } 1).1 rfl
    rw [h.1]
    decide
  · exact (tensor_as_slice_type_check
      { inner := 0, data_type := 1, data_ptr := Int.ofNat, shape := [2, 2] } 2).2
      (by decide)

/-- **C10.** For every CoreML output tensor, the unified
`OutputTensor::as_slice` always returns `Some`: the CoreML arm performs no
element-type check before exposing the buffer, so a CoreML output can
never report "no data" through the unified accessor. -/
theorem coreml_as_slice_always_some (t : COutputTensor) :
    (UOutputTensor.coreml t).as_slice = some t.as_slice :=
  rfl

/-! ## Theorems for claim C7 -/

/-- **C7 counterexample.** At a concrete `Environment` (memory-info handle
5, env handle 7), the destruction trace does *not* release the
memory-descriptor handle before the runtime-context handle: the env handle
is released first. -/
theorem environment_drop_order_counterexample :
    ¬ ((Environment.dropTrace ⟨⟨5⟩, 7⟩).indexOf (Event.releaseMemoryInfo 5) <
       (Environment.dropTrace ⟨⟨5⟩, 7⟩).indexOf (Event.releaseEnv 7)) := by
  decide

/-- **C7 amended.** When an `Environment` value is destroyed, both handles
are released exactly once, and the runtime-context (env) handle is
released *before* the memory-descriptor (memory-info) handle: the `Drop`
impl's body releases the env handle and field drops (which release the
memory-info handle) run after it. -/
theorem environment_drop_env_released_before_memory_info (env : EnvironmentHandles) :
    (Environment.dropTrace env).count (Event.releaseEnv env.inner) = 1 ∧
    (Environment.dropTrace env).count (Event.releaseMemoryInfo env.memory_info.inner) = 1 ∧
    (Environment.dropTrace env).indexOf (Event.releaseEnv env.inner) <
      (Environment.dropTrace env).indexOf (Event.releaseMemoryInfo env.memory_info.inner) := by
  refine ⟨?_, ?_, ?_⟩ <;>
    simp [Environment.dropTrace, List.count_cons, List.indexOf_cons]

/-! ## Theorems for claims C4 and C9 -/

/-- **C4.** `Environment::new_session` selects the backend by file
extension: extension `"onnx"` attempts exactly the ONNX constructor and
returns its (wrapped) result, extension `"mlmodel"` attempts exactly the
CoreML constructor and returns its (wrapped) result, and any other path
returns `UnsupportedFormat` without attempting any backend construction. -/
theorem new_session_dispatch_by_extension
    (onnxNew : Except NewSessionError Session)
    (coremlNew : Except NewMLModelError MLModel) (path : List Char) :
    (rustExtension path = some "onnx".toList →
      (UEnvironment.new_session onnxNew coremlNew path).2 = [BackendAttempt.onnx] ∧
      (∀ s, onnxNew = Except.ok s →
        (UEnvironment.new_session onnxNew coremlNew path).1 =
          Except.ok (USession.onnx s)) ∧
      (∀ e, onnxNew = Except.error e →
        (UEnvironment.new_session onnxNew coremlNew path).1 =
          Except.error (UNewSessionError.onnxErr e))) ∧
    (rustExtension path = some "mlmodel".toList →
      (UEnvironment.new_session onnxNew coremlNew path).2 = [BackendAttempt.coreml] ∧
      (∀ m, coremlNew = Except.ok m →
        (UEnvironment.new_session onnxNew coremlNew path).1 =
          Except.ok (USession.coreml m)) ∧
      (∀ e, coremlNew = Except.error e →
        (UEnvironment.new_session onnxNew coremlNew path).1 =
          Except.error (UNewSessionError.coremlErr e))) ∧
    ((rustExtension path = none ∨
        ∃ ext, rustExtension path = some ext ∧
          ext ≠ "onnx".toList ∧ ext ≠ "mlmodel".toList) →
      (UEnvironment.new_session onnxNew coremlNew path).1 =
        Except.error UNewSessionError.unsupportedFormat ∧
      (UEnvironment.new_session onnxNew coremlNew path).2 = []) := by
  refine ⟨?_, ?_, ?_⟩
  · intro hext
    refine ⟨?_, ?_, ?_⟩
    · simp [UEnvironment.new_session, hext]
    · intro s hs
      simp [UEnvironment.new_session, hext, hs]
    · intro e he
      simp [UEnvironment.new_session, hext, he]
  · intro hext
    refine ⟨?_, ?_, ?_⟩
    · simp [UEnvironment.new_session, hext]
    · intro m hm
      simp [UEnvironment.new_session, hext, hm]
    · intro e he
      simp [UEnvironment.new_session, hext, he]
  · rintro (hext | ⟨ext, hext, hne1, hne2⟩)
    · constructor <;> simp [UEnvironment.new_session, hext]
    · constructor <;>
        (simp only [UEnvironment.new_session, hext]
         rw [if_neg hne1, if_neg hne2])

/-- Witness for C4: concrete paths `"model.onnx"` (dispatches to the ONNX
constructor), `"model.mlmodel"` (dispatches to the CoreML constructor) and
`"model.txt"` (unsupported, no backend attempted). -/
theorem new_session_dispatch_by_extension_witness :
    ((UEnvironment.new_session (Except.ok sampleSession)
        (Except.ok sampleMLModel) "model.onnx".toList).1 =
      Except.ok (USession.onnx sampleSession)) ∧
    ((UEnvironment.new_session (Except.ok sampleSession)
        (Except.ok sampleMLModel) "model.mlmodel".toList).1 =
      Except.ok (USession.coreml sampleMLModel)) ∧
    ((UEnvironment.new_session (Except.ok sampleSession)
        (Except.ok sampleMLModel) "model.txt".toList).1 =
      Except.error UNewSessionError.unsupportedFormat ∧
    (UEnvironment.new_session (Except.ok sampleSession)
        (Except.ok sampleMLModel) "model.txt".toList).2 = []) :=
  ⟨((new_session_dispatch_by_extension (Except.ok sampleSession)
      (Except.ok sampleMLModel) "model.onnx".toList).1 (by decide)).2.1
      sampleSession rfl,
   ((new_session_dispatch_by_extension (Except.ok sampleSession)
      (Except.ok sampleMLModel) "model.mlmodel".toList).2.1 (by decide)).2.1
      sampleMLModel rfl,
   (new_session_dispatch_by_extension (Except.ok sampleSession)
      (Except.ok sampleMLModel) "model.txt".toList).2.2
      (Or.inr ⟨"txt".toList, by decide, by decide, by decide⟩)⟩

/-- **C9.** Extension matching in `Environment::new_session` is exact and
case-sensitive: a path whose extension differs from `"onnx"`/`"mlmodel"`
only in letter case, or a path with no extension at all, returns the
`UnsupportedFormat` error (and attempts no backend construction). -/
theorem new_session_extension_case_sensitive
    (onnxNew : Except NewSessionError Session)
    (coremlNew : Except NewMLModelError MLModel) (path : List Char)
    (h : rustExtension path = none ∨
      ∃ ext, rustExtension path = some ext ∧
        ext ≠ "onnx".toList ∧ ext ≠ "mlmodel".toList ∧
        (lowerChars ext = "onnx".toList ∨ lowerChars ext = "mlmodel".toList)) :
    (UEnvironment.new_session onnxNew coremlNew path).1 =
      Except.error UNewSessionError.unsupportedFormat ∧
    (UEnvironment.new_session onnxNew coremlNew path).2 = [] := by
  rcases h with hext | ⟨ext, hext, hne1, hne2, _⟩
  · constructor <;> simp [UEnvironment.new_session, hext]
  · constructor <;>
      (simp only [UEnvironment.new_session, hext]
       rw [if_neg hne1, if_neg hne2])

/-- Witness for C9: the concrete paths `"model.ONNX"` (extension differing
from `"onnx"` only in case) and `"model"` (no extension) both produce the
unsupported-format error without any backend attempt. -/
theorem new_session_extension_case_sensitive_witness :
    ((UEnvironment.new_session (Except.ok sampleSession)
        (Except.ok sampleMLModel) "model.ONNX".toList).1 =
      Except.error UNewSessionError.unsupportedFormat ∧
    (UEnvironment.new_session (Except.ok sampleSession)
        (Except.ok sampleMLModel) "model.ONNX".toList).2 = []) ∧
    ((UEnvironment.new_session (Except.ok sampleSession)
        (Except.ok sampleMLModel) "model".toList).1 =
      Except.error UNewSessionError.unsupportedFormat ∧
    (UEnvironment.new_session (Except.ok sampleSession)
        (Except.ok sampleMLModel) "model".toList).2 = []) :=
  ⟨new_session_extension_case_sensitive (Except.ok sampleSession)
      (Except.ok sampleMLModel) "model.ONNX".toList
      (Or.inr ⟨"ONNX".toList, by decide, by decide, by decide,
        Or.inl (by decide)⟩),
   new_session_extension_case_sensitive (Except.ok sampleSession)
      (Except.ok sampleMLModel) "model".toList (Or.inl (by decide))⟩

end InferRs
